import Mathlib

/-!
Shallow embedding of the tag-file subsystem of the `bagr` BagIt implementation
(`src/bagit/tag.rs`, `src/bagit/consts.rs`), together with theorems checking the
specification's claims about it.

Rust `&str` values are modelled as `List Char` (Rust strings are sequences of
unicode scalar values; every operation the code performs — `split_once` on a
one-byte char, `starts_with`/`ends_with` with a char predicate, `contains` with
a char predicate, `eq_ignore_ascii_case`, slicing off one ASCII byte — acts on
char boundaries, so the char-list view is faithful).  Fallible Rust functions
returning `Result` are modelled with `Except`; functions that mutate `&mut self`
and return `Result<()>` are modelled as state transformers returning the new
state paired with the `Except` outcome, which captures the state left behind by
a failing call.  File I/O is abstracted to the sequence of lines written or
read, as the spec treats the line reader (a sequence-of-lines producer).
-/

deriving instance DecidableEq for Except

/-- Rust string slices modelled as lists of chars. -/
abbrev Str := List Char

/-- Helper to write `Str` literals. -/
def str (s : String) : Str := s.data

/-- Modelled from the spec: `is_space_or_tab` lives in `src/bagit/io.rs`, which is
not under `src/`; the spec's tag-file grammar calls the separator "one
space-or-tab character". -/
def is_space_or_tab (c : Char) : Bool := c = ' ' || c = '\t'

/-- `CR` constant used by `tag.rs` (defined in the part of `consts.rs` not under
`src/`; its meaning is fixed by the name and the spec's "CR/LF"). -/
def CR : Char := '\r'

/-- `LF` constant, as `CR`. -/
def LF : Char := '\n'

def UTF_8 : Str := str "UTF-8"

def LABEL_BAGIT_VERSION : Str := str "BagIt-Version"

def LABEL_FILE_ENCODING : Str := str "Tag-File-Character-Encoding"

def LABEL_BAGGING_DATE : Str := str "Bagging-Date"

def LABEL_PAYLOAD_OXUM : Str := str "Payload-Oxum"

/-- `str::starts_with` with a char-predicate pattern: tests the first char. -/
def startsWithP (p : Char → Bool) : Str → Bool
  | [] => false
  | c :: _ => p c

/-- `str::ends_with` with a char-predicate pattern: tests the last char. -/
def endsWithP (p : Char → Bool) (s : Str) : Bool := startsWithP p s.reverse

/-- Rust `u8::to_ascii_lowercase` lifted to chars: folds ASCII uppercase,
leaves everything else unchanged (Rust folds bytewise; non-ASCII UTF-8 bytes
are never in the ASCII uppercase range, so the char-level view agrees). -/
def asciiLowerChar (c : Char) : Char :=
  if 'A' ≤ c ∧ c ≤ 'Z' then Char.ofNat (c.toNat + 32) else c

/-- Rust `str::eq_ignore_ascii_case`. -/
def eq_ignore_ascii_case (a b : Str) : Bool :=
  a.map asciiLowerChar == b.map asciiLowerChar

/-- `BagItVersion` from `src/bagit/bag.rs` (not under `src/`).  Modelled from the
spec: "SemVer-like(major,minor)".  `consts.rs` constructs it as
`BagItVersion::new(1, 0)`. -/
structure BagItVersion where
  major : Nat
  minor : Nat
deriving DecidableEq, Repr

/-- `pub const BAGIT_1_0: BagItVersion = BagItVersion::new(1, 0);` -/
def BAGIT_1_0 : BagItVersion := ⟨1, 0⟩

/-- `pub const BAGIT_DEFAULT_VERSION: BagItVersion = BAGIT_1_0;` -/
def BAGIT_DEFAULT_VERSION : BagItVersion := BAGIT_1_0

/-- The error type from `src/bagit/error.rs` (not under `src/`): the variants and
their fields are exactly those `tag.rs` constructs and matches on. -/
inductive Error where
  | InvalidTag (label : Str) (details : Str)
  | InvalidTagLine (details : Str)
  | InvalidTagLineWithRef (details : Str) (path : Str) (num : Nat)
  | MissingTag (tag : Str)
  | UnsupportedVersion (version : BagItVersion)
  | UnsupportedEncoding (encoding : Str)
  | InvalidBagItVersion (version : Str)
deriving DecidableEq, Repr

/-- `Tag` (`tag.rs` lines 30-33): an immutable label/value pair. -/
structure Tag where
  label : Str
  value : Str
deriving DecidableEq, Repr

/-- `Tag::validate_label` (`tag.rs` lines 364-378). -/
def Tag.validate_label (label : Str) : Except Error Unit :=
  if startsWithP is_space_or_tab label || endsWithP is_space_or_tab label then
    .error (.InvalidTag label (str "Label must not start or end with whitespace"))
  else if label.any (fun c => c = CR || c = LF) then
    .error (.InvalidTag label (str "Label must not contain CR or LF characters"))
  else
    .ok ()

/-- `Tag::validate_value` (`tag.rs` lines 380-390). -/
def Tag.validate_value (label value : Str) : Except Error Unit :=
  if value.any (fun c => c = CR || c = LF) then
    .error (.InvalidTag label (str "Value must not contain CR or LF characters"))
  else
    .ok ()

/-- `Tag::new` (`tag.rs` lines 351-362): validates label then value (the `?`
operator's early return is the explicit match). -/
def Tag.new (label value : Str) : Except Error Tag :=
  match Tag.validate_label label with
  | .error e => .error e
  | .ok () =>
    match Tag.validate_value label value with
    | .error e => .error e
    | .ok () => .ok { label := label, value := value }

/-- `TagList` (`tag.rs` lines 36-38): ordered sequence of tags. -/
structure TagList where
  tags : List Tag
deriving DecidableEq, Repr

/-- `TagList::new` (`tag.rs` lines 394-396).  `with_capacity` only preallocates
and is observationally the same. -/
def TagList.new : TagList := ⟨[]⟩

/-- `TagList::get_tags` (`tag.rs` lines 405-411): all tags whose label matches
case-insensitively, in order. -/
def TagList.get_tags (tl : TagList) (label : Str) : List Tag :=
  tl.tags.filter (fun tag => eq_ignore_ascii_case tag.label label)

/-- `TagList::get_tag` (`tag.rs` lines 414-419): first case-insensitive match. -/
def TagList.get_tag (tl : TagList) (label : Str) : Option Tag :=
  tl.tags.find? (fun tag => eq_ignore_ascii_case tag.label label)

/-- `TagList::add` (`tag.rs` lines 421-423): push at the end. -/
def TagList.add (tl : TagList) (tag : Tag) : TagList := ⟨tl.tags ++ [tag]⟩

/-- `TagList::add_tag` (`tag.rs` lines 425-428).  `&mut self` with `Result<()>`
is modelled as (new state, outcome); when `Tag::new` fails nothing was pushed. -/
def TagList.add_tag (tl : TagList) (label value : Str) : TagList × Except Error Unit :=
  match Tag.new label value with
  | .ok t => (tl.add t, .ok ())
  | .error e => (tl, .error e)

/-- `TagList::remove_tags` (`tag.rs` lines 431-434): retain the non-matching. -/
def TagList.remove_tags (tl : TagList) (label : Str) : TagList :=
  ⟨tl.tags.filter (fun e => !eq_ignore_ascii_case e.label label)⟩

/-- `BagInfo` (`tag.rs` lines 25-27). -/
structure BagInfo where
  tags : TagList
deriving DecidableEq, Repr

/-- `BagInfo::new` (`tag.rs` lines 136-140). -/
def BagInfo.new : BagInfo := ⟨TagList.new⟩

/-- `BagInfo::with_tags` (`tag.rs` lines 148-150): wraps the list unchanged. -/
def BagInfo.with_tags (tags : TagList) : BagInfo := ⟨tags⟩

/-- `impl From<TagList> for BagInfo` (`tag.rs` lines 331-335): delegates to
`with_tags`; this is the conversion `read_bag_info` applies to a parsed list. -/
def BagInfo.from_tag_list (tags : TagList) : BagInfo := BagInfo.with_tags tags

/-- `BagInfo::get_tag` (`tag.rs` lines 170-172). -/
def BagInfo.get_tag (info : BagInfo) (label : Str) : Option Tag :=
  info.tags.get_tag label

/-- `BagInfo::get_tags` (`tag.rs` lines 175-177). -/
def BagInfo.get_tags (info : BagInfo) (label : Str) : List Tag :=
  info.tags.get_tags label

/-- Modelled from the spec: the `LABEL_REPEATABLE` registry is in the part of
`consts.rs` not under `src/`.  The spec fixes its contents: "non-repeatable set:
Bagging-Date, Payload-Oxum, Software-Agent, Bag-Size, Bag-Group-Identifier,
Bag-Count; repeatable set: Source-Organization, Organization-Address,
Contact-Name, Contact-Phone, Contact-Email, External-Description,
External-Identifier, Internal-Sender-Identifier, Internal-Sender-Description,
BagIt-Profile-Identifier". -/
def LABEL_REPEATABLE : List (Str × Bool) :=
  [ (str "Bagging-Date", false)
  , (str "Payload-Oxum", false)
  , (str "Software-Agent", false)
  , (str "Bag-Size", false)
  , (str "Bag-Group-Identifier", false)
  , (str "Bag-Count", false)
  , (str "Source-Organization", true)
  , (str "Organization-Address", true)
  , (str "Contact-Name", true)
  , (str "Contact-Phone", true)
  , (str "Contact-Email", true)
  , (str "External-Description", true)
  , (str "External-Identifier", true)
  , (str "Internal-Sender-Identifier", true)
  , (str "Internal-Sender-Description", true)
  , (str "BagIt-Profile-Identifier", true) ]

/-- The repeatability lookup inside `BagInfo::add_tag` (`tag.rs` lines 155-159):
case-insensitive find in the registry, defaulting to repeatable. -/
def BagInfo.lookupRepeatable (label : Str) : Option Bool :=
  (LABEL_REPEATABLE.find? (fun p => eq_ignore_ascii_case p.1 label)).map Prod.snd

/-- `BagInfo::add_non_repeatable` (`tag.rs` lines 308-316): removes all tags with
the label, then adds.  The removal stays in effect even when the add fails. -/
def BagInfo.add_non_repeatable (info : BagInfo) (label value : Str) :
    BagInfo × Except Error Unit :=
  let removed := info.tags.remove_tags label
  let (tags', r) := removed.add_tag label value
  (⟨tags'⟩, r)

/-- `BagInfo::add_repeatable` (`tag.rs` lines 319-322): adds without removing. -/
def BagInfo.add_repeatable (info : BagInfo) (label value : Str) :
    BagInfo × Except Error Unit :=
  let (tags', r) := info.tags.add_tag label value
  (⟨tags'⟩, r)

/-- `BagInfo::add_tag` (`tag.rs` lines 152-166). -/
def BagInfo.add_tag (info : BagInfo) (label value : Str) :
    BagInfo × Except Error Unit :=
  let repeatable := (BagInfo.lookupRepeatable label).getD true
  if repeatable then info.add_repeatable label value
  else info.add_non_repeatable label value

/-- `BagDeclaration` (`tag.rs` lines 18-22). -/
structure BagDeclaration where
  version : BagItVersion
  encoding : Str
deriving DecidableEq, Repr

/-- `BagDeclaration::new` (`tag.rs` lines 71-76). -/
def BagDeclaration.new : BagDeclaration := ⟨BAGIT_DEFAULT_VERSION, UTF_8⟩

/-- `BagDeclaration::with_values` (`tag.rs` lines 78-95): rejects any version
other than 1.0 and any encoding other than "UTF-8". -/
def BagDeclaration.with_values (version : BagItVersion) (encoding : Str) :
    Except Error BagDeclaration :=
  if BAGIT_1_0 ≠ version then
    .error (.UnsupportedVersion version)
  else if UTF_8 ≠ encoding then
    .error (.UnsupportedEncoding encoding)
  else
    .ok ⟨version, encoding⟩

/-- Decimal rendering of a `Nat`, for `BagItVersion`'s `Display`. -/
def natToStr (n : Nat) : Str := Nat.toDigits 10 n

/-- Modelled from the spec: `BagItVersion`'s `Display` (`bag.rs`, not under
`src/`); the spec has the version type "supporting parse/compare/format" with
textual form `major.minor` (scenario: version tag value `"1.0"`). -/
def BagItVersion.to_string (v : BagItVersion) : Str :=
  natToStr v.major ++ str "." ++ natToStr v.minor

/-- Splits a string at the first occurrence of `sep`, Rust `str::split_once`:
`none` when `sep` does not occur. -/
def splitOnce (sep : Char) : Str → Option (Str × Str)
  | [] => none
  | c :: rest =>
    if c = sep then some ([], rest)
    else match splitOnce sep rest with
      | some (a, b) => some (c :: a, b)
      | none => none

/-- Parses a nonempty all-decimal-digit string. -/
def parseNat (s : Str) : Option Nat :=
  if s = [] ∨ s.any (fun c => !c.isDigit) then none
  else some (s.foldl (fun acc c => 10 * acc + (c.toNat - 48)) 0)

/-- Modelled from the spec: `BagItVersion::try_from(&String)` (`bag.rs`, not
under `src/`); the spec's version type is "an opaque comparable/parseable
type" with textual form `major.minor`, so parsing splits on the first `.` and
reads two decimal numbers, failing otherwise. -/
def BagItVersion.try_from (s : Str) : Except Error BagItVersion :=
  match splitOnce '.' s with
  | some (a, b) =>
    match parseNat a, parseNat b with
    | some ma, some mi => .ok ⟨ma, mi⟩
    | _, _ => .error (.InvalidBagItVersion s)
  | none => .error (.InvalidBagItVersion s)

/-- `impl TryFrom<TagList> for BagDeclaration` (`tag.rs` lines 113-133): look up
the version tag, parse it, look up the encoding tag, then `with_values`. -/
def BagDeclaration.from_tags (tags : TagList) : Except Error BagDeclaration :=
  match tags.get_tag LABEL_BAGIT_VERSION with
  | none => .error (.MissingTag LABEL_BAGIT_VERSION)
  | some version_tag =>
    match BagItVersion.try_from version_tag.value with
    | .error e => .error e
    | .ok version =>
      match tags.get_tag LABEL_FILE_ENCODING with
      | none => .error (.MissingTag LABEL_FILE_ENCODING)
      | some encoding_tag => BagDeclaration.with_values version encoding_tag.value

/-- `BagDeclaration::to_tags` (`tag.rs` lines 97-104).  The Rust code `unwrap`s
the two `add_tag` results; an `unwrap` panic is modelled as `none`. -/
def BagDeclaration.to_tags (d : BagDeclaration) : Option TagList :=
  let (tags₁, r₁) := TagList.new.add_tag LABEL_BAGIT_VERSION d.version.to_string
  match r₁ with
  | .error _ => none
  | .ok () =>
    let (tags₂, r₂) := tags₁.add_tag LABEL_FILE_ENCODING d.encoding
    match r₂ with
    | .error _ => none
    | .ok () => some tags₂

/-- `parse_tag_line` (`tag.rs` lines 524-544): split at the first colon; the
value part must start with one space-or-tab, which is stripped (`&value[1..]`
drops one byte, and the checked first char is one byte). -/
def parse_tag_line (line : Str) : Except Error Tag :=
  match splitOnce ':' line with
  | some (label, value) =>
    if !startsWithP is_space_or_tab value then
      .error (.InvalidTagLine (str "Value part must start with one whitespace character"))
    else
      Tag.new label (value.drop 1)
  | none => .error (.InvalidTagLine (str "Missing colon separating the label and value"))

/-- `write_tag_file` (`tag.rs` lines 462-476) modelled by the lines it writes:
one `"<label>: <value>"` line per tag, in order (`writeln!` supplies the
terminator, which the line model keeps implicit). -/
def write_tag_file (tags : TagList) : List Str :=
  tags.tags.map (fun tag => tag.label ++ str ": " ++ tag.value)

/-- The detail string `read_tag_file` extracts from a parse error (`tag.rs`
lines 495-518): the `details` field for `InvalidTag` and `InvalidTagLine`; the
catch-all arm stringifies the error (unreachable from `parse_tag_line`, which
only returns those two variants — see `parse_tag_line_error_shape`). -/
def tagLineErrorDetails : Error → Str
  | .InvalidTag _ details => details
  | .InvalidTagLine details => details
  | _ => str "error"

/-- The loop of `read_tag_file` (`tag.rs` lines 484-521): `tag_num` is a `u32`
counter (incremented modulo 2^32), each line is parsed, the first failure is
rewrapped with the path and line number and aborts. -/
def read_tag_file_go (path : Str) (tags : TagList) (tag_num : Nat) :
    List Str → Except Error TagList
  | [] => .ok tags
  | line :: rest =>
    let n := (tag_num + 1) % 4294967296
    match parse_tag_line line with
    | .ok tag => read_tag_file_go path (tags.add tag) n rest
    | .error e => .error (.InvalidTagLineWithRef (tagLineErrorDetails e) path n)

/-- `read_tag_file` (`tag.rs` lines 478-522) modelled over the sequence of
lines its `TagLineReader` yields (the spec treats the reader as an external
sequence-of-lines producer). -/
def read_tag_file (path : Str) (lines : List Str) : Except Error TagList :=
  read_tag_file_go path TagList.new 0 lines

/-! ### Helper lemmas -/

theorem eq_ignore_ascii_case_refl (l : Str) : eq_ignore_ascii_case l l = true := by
  simp [eq_ignore_ascii_case]

theorem remove_tags_filter_nil (tl : TagList) (label : Str) :
    (tl.remove_tags label).tags.filter
      (fun tag => eq_ignore_ascii_case tag.label label) = [] := by
  simp only [TagList.remove_tags, List.filter_filter]
  apply List.filter_eq_nil_iff.mpr
  intro t _
  cases h : eq_ignore_ascii_case t.label label <;> simp [h]

theorem Tag.new_ok_shape {label value : Str} {t : Tag}
    (h : Tag.new label value = .ok t) : t = ⟨label, value⟩ := by
  unfold Tag.new at h
  split at h
  · exact absurd h (by simp)
  · split at h
    · exact absurd h (by simp)
    · injection h with h2
      exact h2.symm

theorem Tag.new_ok_of_checks {label value : Str}
    (h₁ : (startsWithP is_space_or_tab label || endsWithP is_space_or_tab label) = false)
    (h₂ : label.any (fun c => c = CR || c = LF) = false)
    (h₃ : value.any (fun c => c = CR || c = LF) = false) :
    Tag.new label value = .ok ⟨label, value⟩ := by
  unfold Tag.new Tag.validate_label Tag.validate_value
  simp [h₁, h₂, h₃]

theorem Tag.new_error_of_value {label value : Str}
    (hv : value.any (fun c => c = CR || c = LF) = true) :
    ∃ e, Tag.new label value = .error e := by
  unfold Tag.new
  split
  · exact ⟨_, rfl⟩
  · have hvv : Tag.validate_value label value =
        .error (.InvalidTag label (str "Value must not contain CR or LF characters")) := by
      simp [Tag.validate_value, hv]
    rw [hvv]
    exact ⟨_, rfl⟩

theorem splitOnce_eq_none {sep : Char} {s : Str} (h : sep ∉ s) :
    splitOnce sep s = none := by
  induction s with
  | nil => rfl
  | cons c rest ih =>
    have hc : ¬c = sep := fun hcs => h (hcs ▸ List.mem_cons_self c rest)
    have hrest : sep ∉ rest := fun hm => h (List.mem_cons_of_mem c hm)
    simp [splitOnce, hc, ih hrest]

theorem splitOnce_append {sep : Char} {a : Str} (b : Str) (h : sep ∉ a) :
    splitOnce sep (a ++ sep :: b) = some (a, b) := by
  induction a with
  | nil => simp [splitOnce]
  | cons c rest ih =>
    have hc : ¬c = sep := fun hcs => h (hcs ▸ List.mem_cons_self c rest)
    have hrest : sep ∉ rest := fun hm => h (List.mem_cons_of_mem c hm)
    simp [splitOnce, hc, ih hrest]

theorem parse_serialize {tag : Tag}
    (hok : Tag.new tag.label tag.value = .ok tag) (hc : ':' ∉ tag.label) :
    parse_tag_line (tag.label ++ str ": " ++ tag.value) = .ok tag := by
  have heq : tag.label ++ str ": " ++ tag.value = tag.label ++ ':' :: (' ' :: tag.value) := by
    simp [str]
  rw [heq]
  unfold parse_tag_line
  rw [splitOnce_append (' ' :: tag.value) hc]
  simp [startsWithP, is_space_or_tab, hok]

theorem read_go_ok (path : Str) (ts : List Tag)
    (h : ∀ tag ∈ ts, parse_tag_line (tag.label ++ str ": " ++ tag.value) = .ok tag)
    (acc : TagList) (n : Nat) :
    read_tag_file_go path acc n
        (ts.map (fun tag => tag.label ++ str ": " ++ tag.value)) =
      .ok ⟨acc.tags ++ ts⟩ := by
  induction ts generalizing acc n with
  | nil => simp [read_tag_file_go]
  | cons t ts ih =>
    have ht := h t (List.mem_cons_self t ts)
    have hrest : ∀ tag ∈ ts, parse_tag_line (tag.label ++ str ": " ++ tag.value) = .ok tag :=
      fun tag hm => h tag (List.mem_cons_of_mem t hm)
    simp only [List.map_cons, read_tag_file_go, ht]
    rw [ih hrest]
    simp [TagList.add]

theorem read_go_error (path : Str) (line : Str) (rest : List Str) (e : Error)
    (hline : parse_tag_line line = .error e) (pre : List Str)
    (hpre : ∀ l ∈ pre, ∃ t, parse_tag_line l = .ok t)
    (acc : TagList) (n : Nat) (hbound : n + pre.length + 1 < 4294967296) :
    read_tag_file_go path acc n (pre ++ line :: rest) =
      .error (.InvalidTagLineWithRef (tagLineErrorDetails e) path (n + pre.length + 1)) := by
  induction pre generalizing acc n with
  | nil =>
    have hn : (n + 1) % 4294967296 = n + 1 :=
      Nat.mod_eq_of_lt (by simpa using hbound)
    simp [read_tag_file_go, hline, hn]
  | cons l pre ih =>
    obtain ⟨t, ht⟩ := hpre l (List.mem_cons_self l pre)
    have hrest : ∀ l' ∈ pre, ∃ t, parse_tag_line l' = .ok t :=
      fun l' hm => hpre l' (List.mem_cons_of_mem l hm)
    have hb' : n + 1 + pre.length + 1 < 4294967296 := by
      simpa [Nat.add_assoc, Nat.add_comm, Nat.add_left_comm] using hbound
    have hn : (n + 1) % 4294967296 = n + 1 :=
      Nat.mod_eq_of_lt (Nat.lt_of_le_of_lt (by omega) hb')
    rw [List.cons_append]
    have step : read_tag_file_go path acc n (l :: (pre ++ line :: rest)) =
        read_tag_file_go path (acc.add t) ((n + 1) % 4294967296) (pre ++ line :: rest) := by
      simp only [read_tag_file_go, ht]
    have harith : n + 1 + pre.length + 1 = n + (l :: pre).length + 1 := by
      simp only [List.length_cons]
      omega
    rw [step, hn, ih hrest _ _ hb', harith]

theorem find?_first_iff {α : Type} (p : α → Bool) (l : List α) (x : α) :
    l.find? p = some x ↔
      ∃ l₁ l₂, l = l₁ ++ x :: l₂ ∧ p x = true ∧ ∀ y ∈ l₁, p y = false := by
  induction l with
  | nil =>
    simp only [List.find?_nil]
    constructor
    · intro h; cases h
    · rintro ⟨l₁, l₂, h, -, -⟩
      exact absurd h (by simp)
  | cons a l ih =>
    cases hpa : p a with
    | true =>
      rw [List.find?_cons_of_pos _ hpa]
      constructor
      · intro h
        cases h
        exact ⟨[], l, rfl, hpa, by simp⟩
      · rintro ⟨l₁, l₂, hdec, hx, hfirst⟩
        cases l₁ with
        | nil => simp at hdec; simp [hdec.1]
        | cons b l₁ =>
          simp only [List.cons_append, List.cons.injEq] at hdec
          have : p a = false := hdec.1 ▸ hfirst b (List.mem_cons_self b l₁)
          rw [this] at hpa; cases hpa
    | false =>
      rw [List.find?_cons_of_neg _ (by simp [hpa])]
      rw [ih]
      constructor
      · rintro ⟨l₁, l₂, hdec, hx, hfirst⟩
        refine ⟨a :: l₁, l₂, by simp [hdec], hx, ?_⟩
        intro y hy
        rcases List.mem_cons.mp hy with h | h
        · exact h ▸ hpa
        · exact hfirst y h
      · rintro ⟨l₁, l₂, hdec, hx, hfirst⟩
        cases l₁ with
        | nil =>
          simp only [List.nil_append, List.cons.injEq] at hdec
          have hfa : p x = false := by rw [← hdec.1]; exact hpa
          rw [hfa] at hx; cases hx
        | cons b l₁ =>
          simp only [List.cons_append, List.cons.injEq] at hdec
          exact ⟨l₁, l₂, hdec.2, hx, fun y hy => hfirst y (List.mem_cons_of_mem b hy)⟩

/-! ### Claim theorems -/

/-- C1, counterexample: the round-trip law as claimed — for every TagList whose
tags satisfy the Tag invariants, parsing the serialized lines yields the same
TagList — fails.  The invariants do not forbid a colon in a label: the single
tag with label `"a: x"` and value `"v"` is constructible (`Tag::new` accepts
it), but it serializes to the line `"a: x: v"`, which parses back as label
`"a"` with value `"x: v"`. -/
theorem C1_roundtrip_counterexample :
    (∀ tag ∈ (⟨[⟨str "a: x", str "v"⟩]⟩ : TagList).tags,
      Tag.new tag.label tag.value = .ok tag) ∧
    read_tag_file (str "bag-info.txt") (write_tag_file ⟨[⟨str "a: x", str "v"⟩]⟩) ≠
      .ok ⟨[⟨str "a: x", str "v"⟩]⟩ := by decide

/-- C1, amended: for every TagList `t` whose tags satisfy the Tag invariants
(`Tag::new` accepts them) and whose labels additionally contain no colon,
parsing the lines produced by serializing `t` yields a TagList equal to `t`. -/
theorem C1_roundtrip_amended (path : Str) (t : TagList)
    (hvalid : ∀ tag ∈ t.tags, Tag.new tag.label tag.value = .ok tag)
    (hcolon : ∀ tag ∈ t.tags, ':' ∉ tag.label) :
    read_tag_file path (write_tag_file t) = .ok t := by
  unfold read_tag_file write_tag_file
  have h : ∀ tag ∈ t.tags, parse_tag_line (tag.label ++ str ": " ++ tag.value) = .ok tag :=
    fun tag hm => parse_serialize (hvalid tag hm) (hcolon tag hm)
  rw [read_go_ok path t.tags h TagList.new 0]
  cases t
  simp [TagList.new]

/-- C1, witness for the amended round-trip at a concrete two-tag list. -/
theorem C1_roundtrip_amended_witness :
    read_tag_file (str "bag-info.txt")
        (write_tag_file ⟨[⟨str "Bagging-Date", str "2024-01-01"⟩,
          ⟨str "Contact-Name", str "Jane Doe"⟩]⟩) =
      .ok ⟨[⟨str "Bagging-Date", str "2024-01-01"⟩, ⟨str "Contact-Name", str "Jane Doe"⟩]⟩ :=
  C1_roundtrip_amended _ _ (by decide) (by decide)

/-- C2: after any successful `BagInfo::add_tag` of a non-repeatable label, the
tags matching that label (case-insensitively) are exactly the one just added —
in particular, adding the same non-repeatable label twice leaves exactly one
tag with that label, holding the second value. -/
theorem C2_add_tag_non_repeatable_unique (info info' : BagInfo) (label value : Str)
    (hrep : BagInfo.lookupRepeatable label = some false)
    (hok : info.add_tag label value = (info', .ok ())) :
    info'.get_tags label = [⟨label, value⟩] := by
  unfold BagInfo.add_tag at hok
  rw [hrep] at hok
  simp only [Option.getD_some, Bool.false_eq_true, if_false] at hok
  unfold BagInfo.add_non_repeatable TagList.add_tag at hok
  cases htn : Tag.new label value with
  | error e =>
    rw [htn] at hok
    simp at hok
  | ok t =>
    rw [htn] at hok
    have hts : t = ⟨label, value⟩ := Tag.new_ok_shape htn
    have hinfo : info' = ⟨(info.tags.remove_tags label).add t⟩ := by
      have := congrArg Prod.fst hok
      simpa using this.symm
    subst hinfo
    unfold BagInfo.get_tags TagList.get_tags TagList.add
    show ((info.tags.remove_tags label).tags ++ [t]).filter _ = _
    rw [List.filter_append, remove_tags_filter_nil]
    simp [hts, eq_ignore_ascii_case_refl]

/-- C2, witness: adding `Payload-Oxum` twice to an empty BagInfo leaves exactly
one tag with that label, holding the second value. -/
theorem C2_add_tag_non_repeatable_unique_witness :
    ((BagInfo.new.add_tag LABEL_PAYLOAD_OXUM (str "1234.2")).1.add_tag
        LABEL_PAYLOAD_OXUM (str "5678.3")).1.get_tags LABEL_PAYLOAD_OXUM =
      [⟨LABEL_PAYLOAD_OXUM, str "5678.3"⟩] :=
  C2_add_tag_non_repeatable_unique
    (BagInfo.new.add_tag LABEL_PAYLOAD_OXUM (str "1234.2")).1
    ((BagInfo.new.add_tag LABEL_PAYLOAD_OXUM (str "1234.2")).1.add_tag
      LABEL_PAYLOAD_OXUM (str "5678.3")).1
    LABEL_PAYLOAD_OXUM (str "5678.3") (by decide) (by decide)

/-- C3: parsing a tag line fails with the malformed-line error
(`InvalidTagLine`) when the line has no colon, and when the part after the
first colon does not begin with one space-or-tab character; otherwise the label
is the substring before the first colon and the value is the remainder after
stripping exactly that one leading whitespace character (the parse continues as
`Tag::new` of those two parts). -/
theorem C3_parse_tag_line_spec (line : Str) :
    (':' ∉ line →
      parse_tag_line line =
        .error (.InvalidTagLine (str "Missing colon separating the label and value"))) ∧
    (∀ label value, line = label ++ ':' :: value → ':' ∉ label →
      ((startsWithP is_space_or_tab value = false →
          parse_tag_line line =
            .error (.InvalidTagLine (str "Value part must start with one whitespace character"))) ∧
       (startsWithP is_space_or_tab value = true →
          parse_tag_line line = Tag.new label (value.drop 1)))) := by
  constructor
  · intro h
    unfold parse_tag_line
    rw [splitOnce_eq_none h]
  · intro label value hdec hc
    subst hdec
    constructor
    · intro hws
      unfold parse_tag_line
      rw [splitOnce_append value hc]
      simp [hws]
    · intro hws
      unfold parse_tag_line
      rw [splitOnce_append value hc]
      simp [hws]

/-- C3, witness: `"Bagging-Date:2024-01-01"` (no space after the colon) fails
with the malformed-line error, and `"Bagging-Date: 2024-01-01"` parses to label
`"Bagging-Date"` and value `"2024-01-01"`. -/
theorem C3_parse_tag_line_spec_witness :
    parse_tag_line (str "Bagging-Date:2024-01-01") =
      .error (.InvalidTagLine (str "Value part must start with one whitespace character")) ∧
    parse_tag_line (str "Bagging-Date: 2024-01-01") =
      .ok ⟨str "Bagging-Date", str "2024-01-01"⟩ := by
  constructor
  · exact ((C3_parse_tag_line_spec (str "Bagging-Date:2024-01-01")).2
      (str "Bagging-Date") (str "2024-01-01") (by decide) (by decide)).1 (by decide)
  · have h := ((C3_parse_tag_line_spec (str "Bagging-Date: 2024-01-01")).2
      (str "Bagging-Date") (str " 2024-01-01") (by decide) (by decide)).2 (by decide)
    rw [h]
    decide

/-- C4: for every label (paired with a CR/LF-free value), `Tag::new` fails with
`InvalidTag` if and only if the label has leading or trailing whitespace
(space-or-tab, the code's and the tag-file grammar's whitespace) or contains CR
or LF. -/
theorem C4_invalid_tag_iff (label value : Str)
    (hv : value.any (fun c => c = CR || c = LF) = false) :
    (∃ d, Tag.new label value = .error (.InvalidTag label d)) ↔
      (startsWithP is_space_or_tab label = true ∨ endsWithP is_space_or_tab label = true ∨
        label.any (fun c => c = CR || c = LF) = true) := by
  constructor
  · rintro ⟨d, hd⟩
    by_contra hcond
    push_neg at hcond
    obtain ⟨h1, h2, h3⟩ := hcond
    have h1f : startsWithP is_space_or_tab label = false := by
      cases hb : startsWithP is_space_or_tab label
      · rfl
      · exact absurd hb h1
    have h2f : endsWithP is_space_or_tab label = false := by
      cases hb : endsWithP is_space_or_tab label
      · rfl
      · exact absurd hb h2
    have h3f : label.any (fun c => c = CR || c = LF) = false := by
      cases hb : label.any (fun c => c = CR || c = LF)
      · rfl
      · exact absurd hb h3
    have hok := @Tag.new_ok_of_checks label value
      (by rw [h1f, h2f]; rfl) h3f hv
    rw [hok] at hd
    cases hd
  · intro hcond
    unfold Tag.new Tag.validate_label
    cases hse : (startsWithP is_space_or_tab label || endsWithP is_space_or_tab label) with
    | true =>
      rw [if_pos (show true = true from rfl)]
      exact ⟨_, rfl⟩
    | false =>
      have hs1 : startsWithP is_space_or_tab label = false := by
        cases hb : startsWithP is_space_or_tab label
        · rfl
        · rw [hb, Bool.true_or] at hse; cases hse
      have hs2 : endsWithP is_space_or_tab label = false := by
        cases hb : endsWithP is_space_or_tab label
        · rfl
        · rw [hb, Bool.or_true] at hse; cases hse
      have hany : label.any (fun c => c = CR || c = LF) = true := by
        rcases hcond with h | h | h
        · rw [h] at hs1; cases hs1
        · rw [h] at hs2; cases hs2
        · exact h
      rw [if_neg (show ¬false = true from fun h => nomatch h), if_pos hany]
      exact ⟨_, rfl⟩

/-- C4, witness: `Tag::new` rejects the label `" x"` (leading space) with
`InvalidTag` and accepts the label `"Bagging-Date"`, both with value `"v"`. -/
theorem C4_invalid_tag_iff_witness :
    (∃ d, Tag.new (str " x") (str "v") = .error (.InvalidTag (str " x") d)) ∧
    ¬(∃ d, Tag.new (str "Bagging-Date") (str "v") =
        .error (.InvalidTag (str "Bagging-Date") d)) := by
  constructor
  · exact (C4_invalid_tag_iff (str " x") (str "v") (by decide)).mpr (by decide)
  · intro hex
    exact absurd ((C4_invalid_tag_iff (str "Bagging-Date") (str "v") (by decide)).mp hex)
      (by decide)

/-- C5: constructing a BagDeclaration from a TagList fails with `MissingTag`
naming the absent label when the version tag (respectively, when the version
tag is present and parses, the encoding tag) is missing, case-insensitively;
with both present, it fails with `UnsupportedVersion` when the parsed version
is not 1.0, fails with `UnsupportedEncoding` when the version is 1.0 but the
encoding is not `"UTF-8"`, and succeeds exactly when the version is 1.0 and the
encoding is `"UTF-8"`. -/
theorem C5_from_tags_spec (tags : TagList) :
    (tags.get_tag LABEL_BAGIT_VERSION = none →
      BagDeclaration.from_tags tags = .error (.MissingTag LABEL_BAGIT_VERSION)) ∧
    (∀ vt v, tags.get_tag LABEL_BAGIT_VERSION = some vt →
      BagItVersion.try_from vt.value = .ok v →
      ((tags.get_tag LABEL_FILE_ENCODING = none →
          BagDeclaration.from_tags tags = .error (.MissingTag LABEL_FILE_ENCODING)) ∧
       (∀ et, tags.get_tag LABEL_FILE_ENCODING = some et →
         ((v ≠ BAGIT_1_0 →
             BagDeclaration.from_tags tags = .error (.UnsupportedVersion v)) ∧
          (v = BAGIT_1_0 → et.value ≠ UTF_8 →
             BagDeclaration.from_tags tags = .error (.UnsupportedEncoding et.value)) ∧
          (v = BAGIT_1_0 → et.value = UTF_8 →
             BagDeclaration.from_tags tags = .ok ⟨BAGIT_1_0, UTF_8⟩))))) := by
  refine ⟨?_, ?_⟩
  · intro h
    simp only [BagDeclaration.from_tags, h]
  · intro vt v hvt hv
    refine ⟨?_, ?_⟩
    · intro h
      simp only [BagDeclaration.from_tags, hvt, hv, h]
    · intro et het
      refine ⟨?_, ?_, ?_⟩
      · intro hne
        simp only [BagDeclaration.from_tags, BagDeclaration.with_values, hvt, hv, het]
        rw [if_pos (Ne.symm hne)]
      · intro hveq hee
        subst hveq
        simp only [BagDeclaration.from_tags, BagDeclaration.with_values, hvt, hv, het]
        rw [if_neg (fun h => h rfl), if_pos (Ne.symm hee)]
      · intro hveq hee
        subst hveq
        simp only [BagDeclaration.from_tags, BagDeclaration.with_values, hvt, hv, het]
        rw [if_neg (fun h => h rfl), if_neg (fun h => h hee.symm), hee]

/-- C5, witness: `bagit.txt` with version `"1.0"` and encoding `"UTF-8"` yields
the declaration, and substituting `"2.0"` yields `UnsupportedVersion`. -/
theorem C5_from_tags_spec_witness :
    BagDeclaration.from_tags
        ⟨[⟨LABEL_BAGIT_VERSION, str "1.0"⟩, ⟨LABEL_FILE_ENCODING, str "UTF-8"⟩]⟩ =
      .ok ⟨BAGIT_1_0, UTF_8⟩ ∧
    BagDeclaration.from_tags
        ⟨[⟨LABEL_BAGIT_VERSION, str "2.0"⟩, ⟨LABEL_FILE_ENCODING, str "UTF-8"⟩]⟩ =
      .error (.UnsupportedVersion ⟨2, 0⟩) := by
  constructor
  · exact (((C5_from_tags_spec
      ⟨[⟨LABEL_BAGIT_VERSION, str "1.0"⟩, ⟨LABEL_FILE_ENCODING, str "UTF-8"⟩]⟩).2
      ⟨LABEL_BAGIT_VERSION, str "1.0"⟩ ⟨1, 0⟩ (by decide) (by decide)).2
      ⟨LABEL_FILE_ENCODING, str "UTF-8"⟩ (by decide)).2.2 (by decide) (by decide)
  · exact (((C5_from_tags_spec
      ⟨[⟨LABEL_BAGIT_VERSION, str "2.0"⟩, ⟨LABEL_FILE_ENCODING, str "UTF-8"⟩]⟩).2
      ⟨LABEL_BAGIT_VERSION, str "2.0"⟩ ⟨2, 0⟩ (by decide) (by decide)).2
      ⟨LABEL_FILE_ENCODING, str "UTF-8"⟩ (by decide)).1 (by decide)

/-- C6: reading a tag file halts at the first line that fails to parse and
returns a single error carrying the file path and the 1-based line number of
the failing line; the lines after it (arbitrary `rest`) are not processed and
no tags are retained.  The line counter is a `u32`; the bound keeps it from
wrapping. -/
theorem C6_halt_first_error (path : Str) (pre : List Str) (line : Str)
    (rest : List Str) (e : Error)
    (hpre : ∀ l ∈ pre, ∃ t, parse_tag_line l = .ok t)
    (hline : parse_tag_line line = .error e)
    (hbound : pre.length + 1 < 4294967296) :
    read_tag_file path (pre ++ line :: rest) =
      .error (.InvalidTagLineWithRef (tagLineErrorDetails e) path (pre.length + 1)) := by
  unfold read_tag_file
  have h := read_go_error path line rest e hline pre hpre TagList.new 0 (by omega)
  simpa using h

/-- C6, witness: a three-line file whose second line has no colon fails with
the path and line number 2; the tag on line 3 is not in the result. -/
theorem C6_halt_first_error_witness :
    read_tag_file (str "bag-info.txt")
        ([str "Contact-Name: Jane"] ++ (str "Bagging-Date") :: [str "Contact-Name: Joe"]) =
      .error (.InvalidTagLineWithRef
        (str "Missing colon separating the label and value") (str "bag-info.txt") 2) := by
  have h := C6_halt_first_error (str "bag-info.txt") [str "Contact-Name: Jane"]
    (str "Bagging-Date") [str "Contact-Name: Joe"]
    (.InvalidTagLine (str "Missing colon separating the label and value"))
    (by intro l hl
        rw [List.mem_singleton] at hl
        subst hl
        exact ⟨⟨str "Contact-Name", str "Jane"⟩, by decide⟩)
    (by decide) (by decide)
  simpa [tagLineErrorDetails] using h

/-- C7: for a repeatable label — including any label absent from the
reserved-label registry, which defaults to repeatable — two successful
`add_tag` calls append both tags at the end in insertion order, removing
nothing, and `get_tags` returns the prior matches followed by both new tags. -/
theorem C7_add_tag_repeatable_appends (info : BagInfo) (label v1 v2 : Str)
    (hrep : BagInfo.lookupRepeatable label = none ∨
      BagInfo.lookupRepeatable label = some true)
    (h1 : Tag.new label v1 = .ok ⟨label, v1⟩)
    (h2 : Tag.new label v2 = .ok ⟨label, v2⟩) :
    info.add_tag label v1 = (⟨⟨info.tags.tags ++ [⟨label, v1⟩]⟩⟩, .ok ()) ∧
    BagInfo.add_tag ⟨⟨info.tags.tags ++ [⟨label, v1⟩]⟩⟩ label v2 =
      (⟨⟨info.tags.tags ++ [⟨label, v1⟩, ⟨label, v2⟩]⟩⟩, .ok ()) ∧
    BagInfo.get_tags ⟨⟨info.tags.tags ++ [⟨label, v1⟩, ⟨label, v2⟩]⟩⟩ label =
      info.get_tags label ++ [⟨label, v1⟩, ⟨label, v2⟩] := by
  have hrep' : (BagInfo.lookupRepeatable label).getD true = true := by
    rcases hrep with h | h <;> rw [h] <;> rfl
  refine ⟨?_, ?_, ?_⟩
  · simp only [BagInfo.add_tag, hrep', if_true]
    unfold BagInfo.add_repeatable TagList.add_tag
    rw [h1]
    rfl
  · simp only [BagInfo.add_tag, hrep', if_true]
    unfold BagInfo.add_repeatable TagList.add_tag
    rw [h2]
    simp [TagList.add]
  · simp only [BagInfo.get_tags, TagList.get_tags, List.filter_append]
    simp [eq_ignore_ascii_case_refl]

/-- C7, witness: the unregistered label `"X-Custom"` added twice to an empty
BagInfo leaves both tags, in insertion order, both returned by `get_tags`. -/
theorem C7_add_tag_repeatable_appends_witness :
    BagInfo.get_tags
        ⟨⟨BagInfo.new.tags.tags ++
          ([⟨str "X-Custom", str "a"⟩, ⟨str "X-Custom", str "b"⟩] : List Tag)⟩⟩
        (str "X-Custom") =
      BagInfo.new.get_tags (str "X-Custom") ++
        ([⟨str "X-Custom", str "a"⟩, ⟨str "X-Custom", str "b"⟩] : List Tag) :=
  (C7_add_tag_repeatable_appends BagInfo.new (str "X-Custom") (str "a") (str "b")
    (Or.inl (by decide)) (by decide) (by decide)).2.2

/-- C8: `to_tags` on a BagDeclaration (every constructible one has version 1.0
and encoding `"UTF-8"`, the invariant `with_values`/`new` enforce, which the
code's `unwrap` relies on) returns exactly the two-tag list [BagIt-Version tag,
Tag-File-Character-Encoding tag] in that order; and `get_tag` returns the first
tag in insertion order whose label matches case-insensitively. -/
theorem C8_to_tags_and_get_tag_first :
    (∀ d : BagDeclaration, d.version = BAGIT_1_0 → d.encoding = UTF_8 →
      d.to_tags = some ⟨[⟨LABEL_BAGIT_VERSION, str "1.0"⟩, ⟨LABEL_FILE_ENCODING, UTF_8⟩]⟩) ∧
    (∀ (tl : TagList) (label : Str) (t : Tag),
      tl.get_tag label = some t ↔
        ∃ pre post, tl.tags = pre ++ t :: post ∧
          eq_ignore_ascii_case t.label label = true ∧
          ∀ u ∈ pre, eq_ignore_ascii_case u.label label = false) := by
  constructor
  · intro d h1 h2
    have hd : d = ⟨BAGIT_1_0, UTF_8⟩ := by
      cases d
      dsimp only at h1 h2
      rw [h1, h2]
    rw [hd]
    decide
  · intro tl label t
    unfold TagList.get_tag
    exact find?_first_iff _ tl.tags t

/-- C8, witness: `to_tags` of the default declaration, and `get_tag` picking
the first of two case-insensitive matches in insertion order. -/
theorem C8_to_tags_and_get_tag_first_witness :
    BagDeclaration.to_tags ⟨BAGIT_1_0, UTF_8⟩ =
      some ⟨[⟨LABEL_BAGIT_VERSION, str "1.0"⟩, ⟨LABEL_FILE_ENCODING, UTF_8⟩]⟩ ∧
    TagList.get_tag ⟨[⟨str "CONTACT-NAME", str "Jane"⟩, ⟨str "Contact-Name", str "Joe"⟩]⟩
        (str "contact-name") =
      some ⟨str "CONTACT-NAME", str "Jane"⟩ := by
  constructor
  · exact C8_to_tags_and_get_tag_first.1 ⟨BAGIT_1_0, UTF_8⟩ rfl rfl
  · exact (C8_to_tags_and_get_tag_first.2
      ⟨[⟨str "CONTACT-NAME", str "Jane"⟩, ⟨str "Contact-Name", str "Joe"⟩]⟩
      (str "contact-name") ⟨str "CONTACT-NAME", str "Jane"⟩).mpr
      ⟨[], [⟨str "Contact-Name", str "Joe"⟩], by decide, by decide, by decide⟩

/-- C9: `BagInfo::add_tag` with a non-repeatable label is not atomic on
failure — when the value is invalid (contains CR or LF) the call returns an
error, yet the BagInfo left behind is exactly the one with every tag of that
label already removed, so no tag with that label remains. -/
theorem C9_add_tag_not_atomic (info : BagInfo) (label value : Str)
    (hrep : BagInfo.lookupRepeatable label = some false)
    (hv : value.any (fun c => c = CR || c = LF) = true) :
    (∃ e, info.add_tag label value = (⟨info.tags.remove_tags label⟩, .error e)) ∧
    (info.add_tag label value).1.get_tags label = [] := by
  obtain ⟨e, he⟩ := @Tag.new_error_of_value label value hv
  have hmain : info.add_tag label value = (⟨info.tags.remove_tags label⟩, .error e) := by
    simp only [BagInfo.add_tag, hrep, Option.getD_some, Bool.false_eq_true, if_false]
    unfold BagInfo.add_non_repeatable TagList.add_tag
    rw [he]
  refine ⟨⟨e, hmain⟩, ?_⟩
  rw [hmain]
  simp only [BagInfo.get_tags, TagList.get_tags]
  exact remove_tags_filter_nil info.tags label

/-- C9, witness: adding `Payload-Oxum` with a value containing LF to a BagInfo
that already holds a `Payload-Oxum` tag fails, yet afterwards no tag with that
label remains. -/
theorem C9_add_tag_not_atomic_witness :
    (∃ e, BagInfo.add_tag ⟨⟨[⟨str "Payload-Oxum", str "1.2"⟩]⟩⟩
        (str "Payload-Oxum") (str "9.9\n") =
      (⟨TagList.remove_tags ⟨[⟨str "Payload-Oxum", str "1.2"⟩]⟩ (str "Payload-Oxum")⟩,
        .error e)) ∧
    (BagInfo.add_tag ⟨⟨[⟨str "Payload-Oxum", str "1.2"⟩]⟩⟩
        (str "Payload-Oxum") (str "9.9\n")).1.get_tags (str "Payload-Oxum") = [] :=
  C9_add_tag_not_atomic ⟨⟨[⟨str "Payload-Oxum", str "1.2"⟩]⟩⟩
    (str "Payload-Oxum") (str "9.9\n") (by decide) (by decide)

/-- C10: constructing a BagInfo from an existing TagList (`with_tags`, and the
`From<TagList>` conversion used when reading bag-info.txt) wraps the list
unchanged, with no normalization or validation: a TagList holding two tags with
the non-repeatable label `Payload-Oxum` is retained whole, and `get_tags`
returns both, so the at-most-one-tag-per-non-repeatable-label invariant is not
established at construction. -/
theorem C10_with_tags_no_normalization :
    BagInfo.lookupRepeatable (str "Payload-Oxum") = some false ∧
    (∀ tl : TagList, BagInfo.with_tags tl = ⟨tl⟩ ∧ BagInfo.from_tag_list tl = ⟨tl⟩) ∧
    BagInfo.get_tags
        (BagInfo.with_tags ⟨[⟨str "Payload-Oxum", str "1.2"⟩, ⟨str "Payload-Oxum", str "3.4"⟩]⟩)
        (str "Payload-Oxum") =
      [⟨str "Payload-Oxum", str "1.2"⟩, ⟨str "Payload-Oxum", str "3.4"⟩] :=
  ⟨by decide, fun tl => ⟨rfl, rfl⟩, by decide⟩

